import Mathlib

/-!
Verification of the Sheet_Scan music-scanner core (`main.py`) against its
natural-language specification.

The Python source is shallowly embedded below.  Pure helpers become Lean
functions; each network call (Vision OCR, Groq LLM, YouTube search/details,
`isodate.parse_duration`) is abstracted as an explicit oracle argument whose
value models the external response, so every function stays executable and
the control flow around the oracles is translated line by line from the
source.  Python exceptions become `Except`/`Option` values; Python `int` is
`Int`; JSON floating-point scores are modelled as `ℚ`.
-/

namespace SheetScan

/-- Embeds the `PieceIdentification` dataclass (main.py lines 44-50).
Also used for the parsed JSON object coming back from the identification
LLM call, since `PieceIdentification(**identification_data)` copies the five
fields verbatim. -/
structure PieceIdentification where
  title : String
  composer : String
  scene_movement : String
  confidence : String
  reasoning : String
deriving Repr, DecidableEq

/-- Embeds the `VideoResult` dataclass (main.py lines 52-67). -/
structure VideoResult where
  video_id : String
  title : String
  channel : String
  video_url : String
  views : Int
  likes : Int
  duration : String
  duration_seconds : Int
  search_strategy : String
  title_match_score : ℚ
  composer_match_score : ℚ
  scene_match_score : ℚ
  duration_match_score : ℚ
  overall_accuracy_score : ℚ
deriving Repr, DecidableEq

/-- The non-score fields of a `VideoResult`: everything the discovery stage
fills in, i.e. a candidate's identity.  The ranking stage may only rewrite
the five score fields, so its set-preservation invariant is stated on this
projection. -/
structure VideoCore where
  video_id : String
  title : String
  channel : String
  video_url : String
  views : Int
  likes : Int
  duration : String
  duration_seconds : Int
  search_strategy : String
deriving Repr, DecidableEq

/-- Projection of a `VideoResult` onto its identity (non-score) fields. -/
def coreOf (v : VideoResult) : VideoCore :=
  { video_id := v.video_id, title := v.title, channel := v.channel,
    video_url := v.video_url, views := v.views, likes := v.likes,
    duration := v.duration, duration_seconds := v.duration_seconds,
    search_strategy := v.search_strategy }

/-- One entry of the parsed scoring-LLM response array
(`scores_data` in `rank_by_accuracy`, main.py lines 740-753). -/
structure ScoreItem where
  video_id : String
  title_match_score : ℚ
  composer_match_score : ℚ
  scene_match_score : ℚ
  duration_match_score : ℚ
  overall_accuracy_score : ℚ
deriving Repr, DecidableEq

/-- The response envelope built by `scan_music_from_base64` /
`create_error_response` (main.py lines 74-85 and 161-188). -/
structure ScanResult where
  piece_identification : PieceIdentification
  videos : List VideoResult
deriving Repr, DecidableEq

/-- Embeds `create_error_response` (main.py lines 74-85). -/
def create_error_response (error_message : String) : ScanResult :=
  { piece_identification :=
      { title := "", composer := "", scene_movement := "",
        confidence := "low", reasoning := error_message },
    videos := [] }

/-! ### Duration parsing and formatting (main.py lines 605-623) -/

/-- Embeds `parse_youtube_duration` (main.py lines 605-611).  The body of its
`try` block — `isodate.parse_duration(duration_iso)` followed by
`int(duration.total_seconds())` — is third-party library code, abstracted as
the oracle `isoParse`; `none` models the library raising any exception, which
the source catches and converts to `0`. -/
def parse_youtube_duration (isoParse : String → Option Int) (duration_iso : String) : Int :=
  match isoParse duration_iso with
  | some secs => secs
  | none => 0

/-- Python's `f"{n:02d}"` for the `n` used by `format_duration`: the argument
is always a remainder modulo 60, hence in `[0, 60)`, so zero-padding to width
2 is the only relevant behaviour. -/
def padTwo (n : Int) : String :=
  if n < 10 then "0" ++ toString n else toString n

/-- Embeds `format_duration` (main.py lines 613-623).  Python `//` and `%` on
ints are floor division and floor remainder, i.e. `Int.fdiv` / `Int.fmod`. -/
def format_duration (seconds : Int) : String :=
  let minutes := seconds.fdiv 60
  let remaining_seconds := seconds.fmod 60
  if 60 ≤ minutes then
    let hours := minutes.fdiv 60
    let remaining_minutes := minutes.fmod 60
    toString hours ++ ":" ++ padTwo remaining_minutes ++ ":" ++ padTwo remaining_seconds
  else
    toString minutes ++ ":" ++ padTwo remaining_seconds

/-! ### Python string primitives

The embedding implements the Python string operations the source uses
(`str.lower`, `str.strip`, `str.split`) directly on the character list of a
`String`, by structural recursion, so that every definition evaluates on
concrete inputs. -/

/-- Python `str.lower` (ASCII case folding suffices for the strings the
source compares against). -/
def pyLower (s : String) : String := String.mk (s.data.map Char.toLower)

/-- Python `str.strip()`: remove leading and trailing whitespace. -/
def pyStrip (s : String) : String :=
  String.mk (((s.data.dropWhile Char.isWhitespace).reverse.dropWhile
    Char.isWhitespace).reverse)

/-- Worker for `pySplitOn`: scan left to right, cutting at each occurrence
of the (non-empty) separator.  The fuel argument only bounds the number of
steps; it is always called with the full character count, which suffices
because every step consumes at least one character. -/
def pySplitOnAux (sep : List Char) : Nat → List Char → List Char → List (List Char)
  | _, [], acc => [acc.reverse]
  | 0, l, acc => [acc.reverse ++ l]
  | fuel + 1, c :: rest, acc =>
    if sep.isPrefixOf (c :: rest) then
      acc.reverse :: pySplitOnAux sep fuel ((c :: rest).drop sep.length) []
    else
      pySplitOnAux sep fuel rest (c :: acc)

/-- Python `str.split(sep)` for a non-empty separator. -/
def pySplitOn (s sep : String) : List String :=
  (pySplitOnAux sep.data s.data.length s.data []).map String.mk

/-- Decimal digits to their value; `none` when empty or non-digit. -/
def digitsToNat? (ds : List Char) : Option Nat :=
  if ds.isEmpty then none
  else if ds.all Char.isDigit then
    some (ds.foldl (fun n c => n * 10 + (c.toNat - 48)) 0)
  else none

/-- Python `int(str)` on the decimal-count strings the statistics fields
carry: an optional sign followed by digits; `none` models the `ValueError`
on anything else. -/
def pyInt? (s : String) : Option Int :=
  match s.data with
  | '-' :: ds => (digitsToNat? ds).map (fun n => -(n : Int))
  | '+' :: ds => (digitsToNat? ds).map (fun n => (n : Int))
  | ds => (digitsToNat? ds).map (fun n => (n : Int))

/-! ### Embedded-JSON object extraction (main.py lines 334-359) -/

/-- The character 0x7B, an opening curly brace. -/
def lbrace : Char := Char.ofNat 123

/-- The character 0x7D, a closing curly brace. -/
def rbrace : Char := Char.ofNat 125

/-- Python's `pat in s` substring test, for non-empty `pat`, expressed
through `splitOn`: `pat` occurs in `s` iff splitting on it yields more than
one piece. -/
def pyContains (s pat : String) : Bool := (pySplitOn s pat).length != 1

/-- The code-fence stripping prelude of `extract_json_from_content`
(main.py lines 336-341): strip whitespace, then cut out the fenced block if
fence markers are present. -/
def stripFence (content : String) : String :=
  let content := pyStrip content
  if pyContains content "```json" then
    pySplitOn ((pySplitOn content "```json").getD 1 "") "```" |>.getD 0 ""
  else if pyContains content "```" then
    (pySplitOn content "```").getD 1 ""
  else content

/-- Python `str.find` for a character predicate on the character list:
index of the first match, `none` when absent (Python returns `-1`). -/
def findCharIdx (p : Char → Bool) : List Char → Option Nat
  | [] => none
  | c :: rest => if p c then some 0 else (findCharIdx p rest).map (· + 1)

/-- The brace-counting loop of `extract_json_from_content` (main.py lines
347-357), running over `content[start:]`: `brace_count` and the enumeration
index `i` are the loop state; `some (i + 1)` models `end = start + i + 1`
followed by `break`, and `none` models the loop running off the end without
breaking (so `end` stays at `start`). -/
def braceScan : List Char → Int → Nat → Option Nat
  | [], _, _ => none
  | c :: rest, brace_count, i =>
    if c == lbrace then braceScan rest (brace_count + 1) (i + 1)
    else if c == rbrace then
      if brace_count - 1 == 0 then some (i + 1)
      else braceScan rest (brace_count - 1) (i + 1)
    else braceScan rest brace_count (i + 1)

/-- Embeds `extract_json_from_content` (main.py lines 334-359).  `.error`
models the `raise Exception("No JSON object found")`; on a scan that never
returns the counter to zero, the returned slice `content[start:start]` is
the empty string. -/
def extract_json_from_content (content : String) : Except String String :=
  let cs := (stripFence content).toList
  match findCharIdx (fun c => c == lbrace) cs with
  | none => .error "No JSON object found"
  | some start =>
    let tail := cs.drop start
    match braceScan tail 0 0 with
    | some e => .ok (String.mk (tail.take e))
    | none => .ok (String.mk (tail.take 0))

/-- Specification-side running brace balance: the number of opening braces
minus the number of closing braces among the first `k` characters. -/
def braceBal (tail : List Char) (k : Nat) : Int :=
  ((tail.take k).count lbrace : Int) - ((tail.take k).count rbrace : Int)

/-- Specification-side "the brace counter never returns to zero": no
non-empty prefix of the scanned region has equally many opening and closing
braces. -/
def neverBalances (tail : List Char) : Prop :=
  ∀ k, 0 < k → k ≤ tail.length → braceBal tail k ≠ 0

/-- Specification-side "the braces balance first at `e`": the prefix of
length `e` has equally many opening and closing braces and no shorter
non-empty prefix does — so characters `0..e-1` run from the first `'{'`
through its matching `'}'`. -/
def balancesAt (tail : List Char) (e : Nat) : Prop :=
  0 < e ∧ e ≤ tail.length ∧ braceBal tail e = 0 ∧
    ∀ k, 0 < k → k < e → braceBal tail k ≠ 0

/-! ### Identification (main.py lines 254-332) -/

/-- The composer test of `identify_piece_simple` (main.py line 329):
`identification_data.get('composer', '').strip().lower() in ['unknown', '']`. -/
def composerUnresolved (composer : String) : Bool :=
  pyLower (pyStrip composer) == "unknown" || pyLower (pyStrip composer) == ""

/-- Embeds the post-parse tail of `identify_piece_simple` (main.py lines
328-332), starting from the parsed identification JSON object `d` (the LLM
call and JSON extraction that produce `d` are upstream): raise
`ValueError("Please show clearer composer")` when the composer is the
"unknown" sentinel or empty, else build the `PieceIdentification`. -/
def identify_piece_simple (d : PieceIdentification) : Except String PieceIdentification :=
  if composerUnresolved d.composer then
    .error "Please show clearer composer"
  else
    .ok d

/-! ### Search strategies (main.py lines 361-386) -/

/-- Embeds `create_simple_search_terms` (main.py lines 361-386).  Python's
`if piece_id.scene_movement:` is string truthiness, i.e. non-emptiness. -/
def create_simple_search_terms (piece_id : PieceIdentification) (instrument : String) :
    List (String × String) :=
  let basic_search := piece_id.title ++ " " ++ piece_id.composer ++ " " ++ instrument
  let search_terms := [(basic_search, "basic")]
  let search_terms :=
    if piece_id.scene_movement ≠ "" then
      search_terms ++ [(piece_id.title ++ " " ++ piece_id.composer ++ " " ++ instrument
        ++ " " ++ piece_id.scene_movement, "scene")]
    else search_terms
  let search_terms :=
    search_terms ++ [(piece_id.title ++ " " ++ piece_id.composer, "ensemble")]
  let search_terms :=
    if piece_id.scene_movement ≠ "" then
      search_terms ++ [(piece_id.title ++ " " ++ piece_id.composer
        ++ " " ++ piece_id.scene_movement, "ensemble_scene")]
    else search_terms
  search_terms

/-! ### Video discovery (main.py lines 388-603) -/

/-- Embeds `validate_video_id` (main.py lines 416-421): exactly 11 characters,
all matching the class `[A-Za-z0-9_-]`. -/
def validate_video_id (video_id : String) : Bool :=
  video_id.length == 11 &&
    video_id.toList.all (fun c => c.isAlphanum || c == '-' || c == '_')

/-- Outcome of one HTTP call: a 200 response with its decoded payload, a
non-200 response with its status code, or a raised
`requests.exceptions.RequestException`. -/
inductive HttpResult (α : Type) where
  | success (data : α)
  | status (code : Nat)
  | netError
deriving Repr, DecidableEq

/-- One attempt of the key-rotation loop in `search_youtube_single`:
what the search endpoint returned for the credential tried at that
iteration.  `items` holds the `videoId` values found in the response
(`item['id']['videoId']` for each item carrying one). -/
structure SearchAttempt where
  transportFail : Bool
  status : Nat
  items : List String
deriving Repr, DecidableEq

/-- Embeds the key-rotation loop of `search_youtube_single` (main.py lines
423-477).  The list `attempts` models, in order, the per-credential responses
(one per YouTube API key, as the Python `for attempt in range(len(YOUTUBE_API_KEYS))`
loop consumes them); `details` models the `get_video_details` call made on a
200 response.  `Except.error` models the `raise` on a transport failure at
the final attempt; falling off the loop returns `[]` (line 477). -/
def search_youtube_single (details : List String → List VideoResult) :
    List SearchAttempt → Except String (List VideoResult)
  | [] => .ok []
  | a :: rest =>
    if a.transportFail then
      -- `except requests.exceptions.RequestException`: raise on the last
      -- attempt, otherwise continue with the next key.
      if rest.isEmpty then .error "All YouTube API keys failed"
      else search_youtube_single details rest
    else if a.status == 200 then
      let valid_video_ids := a.items.filter validate_video_id
      if valid_video_ids.isEmpty then .ok []
      else .ok (details valid_video_ids)
    else if a.status == 403 || a.status == 429 then
      -- "YouTube API key issue ..., trying next key..."
      search_youtube_single details rest
    else
      -- "YouTube API returned status {code}" — and `continue`.
      search_youtube_single details rest

/-- One raw item of a video-details response, with exactly the fields
`parse_video_item` reads; `none` models an absent JSON key (Python
`KeyError` on subscript, or the `.get` default for the statistics). -/
structure RawVideoItem where
  id : Option String
  title : Option String
  channelTitle : Option String
  viewCount : Option String
  likeCount : Option String
  duration : Option String
deriving Repr, DecidableEq

/-- Embeds `parse_video_item` (main.py lines 564-603).  Returns `none` when
the Python body raises `KeyError` (required key absent) or `ValueError`
(`int(...)` on a non-numeric count).  `isoParse` is the `isodate` oracle of
`parse_youtube_duration`. -/
def parse_video_item (isoParse : String → Option Int) (item : RawVideoItem)
    (strategy : String) : Option VideoResult :=
  match item.id, item.title, item.channelTitle, item.duration with
  | some video_id, some title, some channel, some duration_iso =>
    let viewsOpt : Option Int := match item.viewCount with
      | none => some 0
      | some s => pyInt? s
    let likesOpt : Option Int := match item.likeCount with
      | none => some 0
      | some s => pyInt? s
    match viewsOpt, likesOpt with
    | some views, some likes =>
      let duration_seconds := parse_youtube_duration isoParse duration_iso
      some
        { video_id := video_id, title := title, channel := channel,
          video_url := "https://www.youtube.com/watch?v=" ++ video_id,
          views := views, likes := likes,
          duration := format_duration duration_seconds,
          duration_seconds := duration_seconds,
          search_strategy := strategy,
          title_match_score := 0, composer_match_score := 0,
          scene_match_score := 0, duration_match_score := 0,
          overall_accuracy_score := 0 }
    | _, _ => none
  | _, _, _, _ => none

/-- Embeds `get_single_video_details` (main.py lines 533-562): any non-200
status, transport error, or empty/unparsable payload yields `[]`; nothing
propagates (the whole body is inside `try ... except: return []`). -/
def get_single_video_details (isoParse : String → Option Int)
    (single : String → HttpResult (List RawVideoItem))
    (video_id : String) (strategy : String) : List VideoResult :=
  match single video_id with
  | .success items =>
    match items with
    | [] => []
    | item :: _ =>
      match parse_video_item isoParse item strategy with
      | some video => [video]
      | none => []
  | .status _ => []
  | .netError => []

/-- The batching of `get_video_details` (main.py line 487:
`for i in range(0, len(video_ids), batch_size)` with `batch_size = 5`). -/
def chunks5 {α : Type} : List α → List (List α)
  | [] => []
  | [a] => [[a]]
  | [a, b] => [[a, b]]
  | [a, b, c] => [[a, b, c]]
  | [a, b, c, d] => [[a, b, c, d]]
  | a :: b :: c :: d :: e :: rest => [a, b, c, d, e] :: chunks5 rest

/-- One iteration of the batch loop of `get_video_details` (main.py lines
487-529): a 200 response is parsed item by item, items failing
`parse_video_item` being skipped; a 400 response falls back to per-id
fetches whose failures are swallowed; any other status, and any transport
error, skips the whole batch (`continue`). -/
def processBatch (isoParse : String → Option Int)
    (batch : List String → HttpResult (List RawVideoItem))
    (single : String → HttpResult (List RawVideoItem)) (strategy : String)
    (all_videos : List VideoResult) (batch_ids : List String) : List VideoResult :=
  match batch batch_ids with
  | .success items =>
    all_videos ++ items.filterMap (fun it => parse_video_item isoParse it strategy)
  | .status code =>
    if code == 400 then
      all_videos ++ batch_ids.flatMap
        (fun vid => get_single_video_details isoParse single vid strategy)
    else all_videos
  | .netError => all_videos

/-- Embeds `get_video_details` (main.py lines 479-531).  `batch` models the
batched details request for one chunk of ids, `single` the individual
request used by the status-400 fallback; the loop body is `processBatch`. -/
def get_video_details (isoParse : String → Option Int)
    (batch : List String → HttpResult (List RawVideoItem))
    (single : String → HttpResult (List RawVideoItem))
    (video_ids : List String) (strategy : String) : List VideoResult :=
  (chunks5 video_ids).foldl (processBatch isoParse batch single strategy) []

/-- The dict insertion of `search_youtube_simple` (main.py lines 395-397):
`if video.video_id not in all_videos: all_videos[video.video_id] = video`,
with the dict modelled as its (insertion-ordered) value list. -/
def dedupInsert (all_videos : List VideoResult) (video : VideoResult) : List VideoResult :=
  if all_videos.any (fun w => w.video_id == video.video_id) then all_videos
  else all_videos ++ [video]

/-- Embeds `search_youtube_simple` (main.py lines 388-405).  Each entry of
`strategy_results` models one strategy's `search_youtube_single` call:
`.ok videos` for a returned list, `.error e` for a raised exception (which
the `except` clause turns into skipping the strategy). -/
def search_youtube_simple
    (strategy_results : List (Except String (List VideoResult))) : List VideoResult :=
  strategy_results.foldl
    (fun all_videos r =>
      match r with
      | .ok videos => videos.foldl dedupInsert all_videos
      | .error _ => all_videos) []

/-- The candidates each strategy contributed, flattened in strategy
generation order (failed strategies contributing nothing): the stream of
videos the deduplicating dict insertion of `search_youtube_simple`
actually consumes. -/
def strategyStream
    (strategy_results : List (Except String (List VideoResult))) : List VideoResult :=
  (strategy_results.filterMap
    (fun r => match r with | .ok videos => some videos | .error _ => none)).flatten

/-! ### Accuracy ranking (main.py lines 625-770) -/

/-- The five score-field assignments of `rank_by_accuracy`
(main.py lines 749-753). -/
def setScores (v : VideoResult) (s : ScoreItem) : VideoResult :=
  { v with
    title_match_score := s.title_match_score,
    composer_match_score := s.composer_match_score,
    scene_match_score := s.scene_match_score,
    duration_match_score := s.duration_match_score,
    overall_accuracy_score := s.overall_accuracy_score }

/-- The score-application loop of `rank_by_accuracy` (main.py lines 743-753):
`video_dict` maps each `video_id` to its (unique — the caller deduplicated)
`VideoResult`, and every scored entry found in it has its five score fields
overwritten; later entries with the same id overwrite earlier ones, entries
with unknown ids are ignored. -/
def apply_scores (videos : List VideoResult) (scores_data : List ScoreItem) : List VideoResult :=
  scores_data.foldl
    (fun vs s => vs.map (fun v => if v.video_id == s.video_id then setScores v s else v))
    videos

/-- The composite sort key of main.py line 756:
`lambda x: (x.overall_accuracy_score, x.scene_match_score)`. -/
def accuracyKey (v : VideoResult) : ℚ × ℚ :=
  (v.overall_accuracy_score, v.scene_match_score)

/-- `a` sorts no later than `b` under Python's
`sorted(key=accuracyKey, reverse=True)`: `b`'s key is lexicographically at
most `a`'s. -/
def accuracyDesc (a b : VideoResult) : Prop :=
  (accuracyKey b).1 < (accuracyKey a).1 ∨
    ((accuracyKey b).1 = (accuracyKey a).1 ∧ (accuracyKey b).2 ≤ (accuracyKey a).2)

instance : DecidableRel accuracyDesc := fun a b =>
  inferInstanceAs (Decidable ((accuracyKey b).1 < (accuracyKey a).1 ∨
    ((accuracyKey b).1 = (accuracyKey a).1 ∧ (accuracyKey b).2 ≤ (accuracyKey a).2)))

instance : IsTotal VideoResult accuracyDesc where
  total a b := by
    unfold accuracyDesc
    rcases lt_trichotomy (accuracyKey a).1 (accuracyKey b).1 with h | h | h
    · exact Or.inr (Or.inl h)
    · rcases le_total (accuracyKey a).2 (accuracyKey b).2 with h2 | h2
      · exact Or.inr (Or.inr ⟨h, h2⟩)
      · exact Or.inl (Or.inr ⟨h.symm, h2⟩)
    · exact Or.inl (Or.inl h)

instance : IsTrans VideoResult accuracyDesc where
  trans a b c hab hbc := by
    unfold accuracyDesc at *
    rcases hab with h1 | ⟨e1, l1⟩ <;> rcases hbc with h2 | ⟨e2, l2⟩
    · exact Or.inl (lt_trans h2 h1)
    · exact Or.inl (e2 ▸ h1)
    · exact Or.inl (e1 ▸ h2)
    · exact Or.inr ⟨e2.trans e1, le_trans l2 l1⟩

/-- `a` sorts no later than `b` under the fallback
`sorted(key=lambda x: x.views, reverse=True)` of main.py line 770. -/
def viewsDesc (a b : VideoResult) : Prop := b.views ≤ a.views

instance : DecidableRel viewsDesc := fun a b =>
  inferInstanceAs (Decidable (b.views ≤ a.views))

instance : IsTotal VideoResult viewsDesc :=
  ⟨fun a b => le_total b.views a.views⟩

instance : IsTrans VideoResult viewsDesc :=
  ⟨fun _ _ _ h1 h2 => le_trans h2 h1⟩

/-- Embeds `rank_by_accuracy` (main.py lines 625-770).  `scoring` models the
scoring LLM interaction: `some scores_data` when the call succeeded and its
response parsed into the score array, `none` when the call raised or the
response was unparsable — the `except` clause then falls back to the
views-descending sort.  Both sorts are Python's stable `sorted(...,
reverse=True)`, embedded as a stable insertion sort under the corresponding
"sorts no later than" relation. -/
def rank_by_accuracy (videos : List VideoResult)
    (scoring : Option (List ScoreItem)) : List VideoResult :=
  if videos.isEmpty then []
  else
    match scoring with
    | some scores_data => List.insertionSort accuracyDesc (apply_scores videos scores_data)
    | none => List.insertionSort viewsDesc videos

/-- Embeds the selection step of `scan_music_from_base64`
(main.py lines 151-159). -/
def select_top_videos (ranked_videos : List VideoResult) : List VideoResult :=
  let high_accuracy_videos :=
    ranked_videos.filter (fun v => decide ((6 : ℚ) ≤ v.overall_accuracy_score))
  if 5 ≤ high_accuracy_videos.length then high_accuracy_videos.take 5
  else ranked_videos.take 5

/-- Embeds `scan_music_from_base64` from step 2 on (main.py lines 125-198);
text extraction (step 1) happens upstream of the parsed identification
object `identification`.  `searchOracle` models steps 3-4's YouTube
interaction (`search_youtube_simple` over the generated terms) and
`scoringOracle` the ranking LLM interaction as in `rank_by_accuracy`.
The `ValueError` raised by `identify_piece_simple` is caught by the
enclosing `except Exception` (line 195), which prefixes "Scan failed: ". -/
def scan_music (identification : PieceIdentification)
    (searchOracle : List (String × String) → List VideoResult)
    (scoringOracle : Option (List ScoreItem))
    (validated_instrument : String) : ScanResult :=
  match identify_piece_simple identification with
  | .error e => create_error_response ("Scan failed: " ++ e)
  | .ok piece_id =>
    if pyLower piece_id.confidence == "low" then
      create_error_response piece_id.reasoning
    else
      let search_terms := create_simple_search_terms piece_id validated_instrument
      let videos := searchOracle search_terms
      if videos.isEmpty then
        create_error_response "No videos found on YouTube - try checking your internet connection"
      else
        let ranked_videos := rank_by_accuracy videos scoringOracle
        { piece_identification := piece_id, videos := select_top_videos ranked_videos }

/-- Specification-side "strictly descending by view count": every video has
strictly more views than the one after it. -/
def strictDescViews : List VideoResult → Bool
  | [] => true
  | [_] => true
  | a :: b :: rest => decide (b.views < a.views) && strictDescViews (b :: rest)

/-- A candidate whose five score fields are all at their zero defaults. -/
def zeroScores (v : VideoResult) : Prop :=
  v.title_match_score = 0 ∧ v.composer_match_score = 0 ∧ v.scene_match_score = 0 ∧
    v.duration_match_score = 0 ∧ v.overall_accuracy_score = 0

/-! ### Concrete fixtures for instantiating the theorems -/

/-- A discovered candidate with the given identifier, view count, overall
score and scene score; all other fields fixed. -/
def sampleVideo (vid : String) (vw : Int) (overall scene : ℚ) : VideoResult :=
  { video_id := vid, title := "Solo de concours", channel := "ch", video_url := "u",
    views := vw, likes := 0, duration := "3:00", duration_seconds := 180,
    search_strategy := "basic", title_match_score := 0, composer_match_score := 0,
    scene_match_score := scene, duration_match_score := 0,
    overall_accuracy_score := overall }

/-- A ranked list with five high-accuracy candidates and one below 6.0. -/
def c1List : List VideoResult :=
  [sampleVideo "aaaaaaaaaaa" 0 8 0, sampleVideo "bbbbbbbbbbb" 0 8 0,
   sampleVideo "ccccccccccc" 0 7 0, sampleVideo "ddddddddddd" 0 7 0,
   sampleVideo "eeeeeeeeeee" 0 6 0, sampleVideo "fffffffffff" 0 2 0]

/-- A candidate with 7 views and zero scores. -/
def c2VideoA : VideoResult := sampleVideo "aaaaaaaaaaa" 7 0 0

/-- A second candidate, also with 7 views and zero scores. -/
def c2VideoB : VideoResult := sampleVideo "bbbbbbbbbbb" 7 0 0

/-- A parsed identification whose composer is the sentinel but whose stated
confidence is "high". -/
def c3Identification : PieceIdentification :=
  { title := "Concerto in D", composer := "Unknown", scene_movement := "",
    confidence := "high", reasoning := "educated guess from partial text" }

/-- A parsed identification without a scene/movement. -/
def c4PieceNoScene : PieceIdentification :=
  { title := "Solo de concours", composer := "Messager", scene_movement := "",
    confidence := "high", reasoning := "r" }

/-- A parsed identification with a scene/movement. -/
def c4PieceScene : PieceIdentification :=
  { title := "Carmen Fantasy", composer := "Bizet", scene_movement := "Habanera",
    confidence := "high", reasoning := "r" }

/-- First discovery of an identifier, under strategy "basic". -/
def c5Dup1 : VideoResult := sampleVideo "ddddddddddd" 1 0 0

/-- A later discovery of the same identifier by another strategy. -/
def c5Dup2 : VideoResult :=
  { sampleVideo "ddddddddddd" 9 0 0 with search_strategy := "ensemble" }

/-- Three strategy outcomes: a success, a failed strategy, and a second
success that rediscovers `c5Dup1`'s identifier. -/
def c5Results : List (Except String (List VideoResult)) :=
  [.ok [c5Dup1], .error "quota", .ok [c5Dup2, sampleVideo "eeeeeeeeeee" 2 0 0]]

/-- A details oracle returning one candidate per requested identifier. -/
def c6Details : List String → List VideoResult :=
  fun ids => ids.map (fun i => sampleVideo i 0 0 0)

/-- Two key attempts: the first answers HTTP 500, the second succeeds. -/
def c6Attempts : List SearchAttempt :=
  [{ transportFail := false, status := 500, items := [] },
   { transportFail := false, status := 200, items := ["abcdefghijk"] }]

/-- A well-formed raw details item. -/
def c7RawItem : RawVideoItem :=
  { id := some "aaaaaaaaaaa", title := some "Solo de concours",
    channelTitle := some "ch", viewCount := some "10", likeCount := none,
    duration := some "PT1M" }

/-- An `isodate` oracle accepting only `"PT1M"`. -/
def c7Iso : String → Option Int := fun s => if s == "PT1M" then some 60 else none

/-- A batch oracle failing every batch with HTTP 404 (a client error that is
not 400). -/
def c7Batch404 : List String → HttpResult (List RawVideoItem) := fun _ => .status 404

/-- A batch oracle failing every batch with HTTP 400. -/
def c7Batch400 : List String → HttpResult (List RawVideoItem) := fun _ => .status 400

/-- A single-item oracle that succeeds with `c7RawItem` for every id. -/
def c7Single : String → HttpResult (List RawVideoItem) := fun _ => .success [c7RawItem]

/-- A candidate for the ranking-invariant instance. -/
def c8Video : VideoResult := sampleVideo "ggggggggggg" 3 0 0

/-- A scored entry whose identifier matches no candidate. -/
def c8Score : ScoreItem :=
  { video_id := "zzzzzzzzzzz", title_match_score := 9, composer_match_score := 9,
    scene_match_score := 9, duration_match_score := 9, overall_accuracy_score := 9 }

/-! ## Claim theorems -/

/-- **C1** (confirmed).  Selection policy of `scan_music_from_base64`
(main.py lines 151-159): with "high accuracy" meaning `overall ≥ 6.0`, if at
least 5 high-accuracy videos exist the selection is exactly the top 5 of
those, in ranked order (`filter` preserves the ranked order); otherwise it
is the top 5 of the full ranked list regardless of score.  Consequently the
result always has exactly `min 5 n` videos for `n` candidates, and never
fewer than 5 when 5 or more candidates exist. -/
theorem c1_selection_policy (ranked_videos : List VideoResult) :
    (5 ≤ (ranked_videos.filter
        (fun v => decide ((6 : ℚ) ≤ v.overall_accuracy_score))).length →
      select_top_videos ranked_videos =
        (ranked_videos.filter
          (fun v => decide ((6 : ℚ) ≤ v.overall_accuracy_score))).take 5) ∧
    ((ranked_videos.filter
        (fun v => decide ((6 : ℚ) ≤ v.overall_accuracy_score))).length < 5 →
      select_top_videos ranked_videos = ranked_videos.take 5) ∧
    (select_top_videos ranked_videos).length = min 5 ranked_videos.length ∧
    (5 ≤ ranked_videos.length → (select_top_videos ranked_videos).length = 5) := by
  have hle : (ranked_videos.filter
      (fun v => decide ((6 : ℚ) ≤ v.overall_accuracy_score))).length
      ≤ ranked_videos.length := List.length_filter_le _ _
  by_cases h5 : 5 ≤ (ranked_videos.filter
      (fun v => decide ((6 : ℚ) ≤ v.overall_accuracy_score))).length
  · have hsel : select_top_videos ranked_videos =
        (ranked_videos.filter
          (fun v => decide ((6 : ℚ) ≤ v.overall_accuracy_score))).take 5 := by
      simp only [select_top_videos]
      rw [if_pos h5]
    refine ⟨fun _ => hsel, fun h => absurd h5 (by omega), ?_, fun _ => ?_⟩
    · rw [hsel, List.length_take]; omega
    · rw [hsel, List.length_take]; omega
  · have hsel : select_top_videos ranked_videos = ranked_videos.take 5 := by
      simp only [select_top_videos]
      rw [if_neg h5]
    refine ⟨fun h => absurd h h5, fun _ => hsel, ?_, fun _ => ?_⟩
    · rw [hsel, List.length_take]
    · rw [hsel, List.length_take]; omega

/-- Witness for C1 at a concrete ranked list with five high-accuracy
candidates among six. -/
theorem c1_selection_policy_witness :
    select_top_videos c1List =
      (c1List.filter (fun v => decide ((6 : ℚ) ≤ v.overall_accuracy_score))).take 5 ∧
    (select_top_videos c1List).length = 5 :=
  ⟨(c1_selection_policy c1List).1 (by decide),
   (c1_selection_policy c1List).2.2.2 (by decide)⟩

/-- **C2** (counterexample).  The claim says the fallback ranking returns
the candidates "in strict descending order of view count".  Python's
`sorted(videos, key=lambda x: x.views, reverse=True)` (main.py line 770) is
a stable descending sort, so two candidates with equal view counts refute
strictness: for this two-element list with 7 views each, the fallback
output (the input order, unchanged) is not strictly descending. -/
theorem c2_fallback_counterexample :
    rank_by_accuracy [c2VideoA, c2VideoB] none = [c2VideoA, c2VideoB] ∧
    strictDescViews (rank_by_accuracy [c2VideoA, c2VideoB] none) = false := by
  exact ⟨rfl, rfl⟩

/-- **C2** (amended).  For every non-empty candidate list, when the scoring
call throws or its response is unparsable (`scoring = none`), the ranking
stage returns a permutation of the candidates sorted in descending
(non-increasing, stable) order of view count; if every input candidate still
has its five score fields at their zero defaults, so does every output
candidate (the fallback path never touches them).  The fallback is a total
function, so it cannot raise. -/
theorem c2_fallback_amended (videos : List VideoResult) (h : videos ≠ []) :
    (rank_by_accuracy videos none).Perm videos ∧
    List.Sorted viewsDesc (rank_by_accuracy videos none) ∧
    ((∀ v ∈ videos, zeroScores v) → ∀ v ∈ rank_by_accuracy videos none, zeroScores v) := by
  have hne : videos.isEmpty = false := by
    cases videos with
    | nil => exact absurd rfl h
    | cons a l => rfl
  have hr : rank_by_accuracy videos none = List.insertionSort viewsDesc videos := by
    simp [rank_by_accuracy, hne]
  rw [hr]
  refine ⟨List.perm_insertionSort _ _, List.sorted_insertionSort _ _, ?_⟩
  intro hz v hv
  exact hz v ((List.perm_insertionSort viewsDesc videos).mem_iff.mp hv)

/-- Witness for the amended C2 at a concrete two-candidate list. -/
theorem c2_fallback_amended_witness :
    (rank_by_accuracy [c2VideoA, c2VideoB] none).Perm [c2VideoA, c2VideoB] ∧
    List.Sorted viewsDesc (rank_by_accuracy [c2VideoA, c2VideoB] none) ∧
    ∀ v ∈ rank_by_accuracy [c2VideoA, c2VideoB] none, zeroScores v := by
  obtain ⟨h1, h2, h3⟩ := c2_fallback_amended [c2VideoA, c2VideoB] (by simp)
  refine ⟨h1, h2, h3 ?_⟩
  intro v hv
  simp only [List.mem_cons, List.not_mem_nil, or_false] at hv
  rcases hv with rfl | rfl <;> exact ⟨rfl, rfl, rfl, rfl, rfl⟩

/-- **C3** (confirmed).  Composer hard rule (main.py lines 328-332, 195-198):
whenever the parsed identification's composer, trimmed and case-folded, is
"unknown" or empty, `identify_piece_simple` fails with the
`ValueError("Please show clearer composer")`, and the scan returns the
structured error envelope (confidence "low", empty video list) built from
that message — regardless of the response's stated confidence, which the
hypothesis does not constrain. -/
theorem c3_composer_hard_rule (d : PieceIdentification)
    (searchOracle : List (String × String) → List VideoResult)
    (scoringOracle : Option (List ScoreItem)) (instrument : String)
    (h : pyLower (pyStrip d.composer) = "unknown" ∨ pyLower (pyStrip d.composer) = "") :
    identify_piece_simple d = .error "Please show clearer composer" ∧
    scan_music d searchOracle scoringOracle instrument =
      create_error_response "Scan failed: Please show clearer composer" ∧
    (scan_music d searchOracle scoringOracle instrument).piece_identification.confidence
      = "low" ∧
    (scan_music d searchOracle scoringOracle instrument).videos = [] := by
  have hb : composerUnresolved d.composer = true := by
    rcases h with h | h <;> simp [composerUnresolved, h]
  have hid : identify_piece_simple d = .error "Please show clearer composer" := by
    simp [identify_piece_simple, hb]
  have hscan : scan_music d searchOracle scoringOracle instrument =
      create_error_response "Scan failed: Please show clearer composer" := by
    unfold scan_music
    rw [hid]
    rfl
  exact ⟨hid, hscan, by rw [hscan]; rfl, by rw [hscan]; rfl⟩

/-- Witness for C3: a concrete identification whose composer is "Unknown"
while its confidence is "high". -/
theorem c3_composer_hard_rule_witness :
    c3Identification.confidence = "high" ∧
    scan_music c3Identification (fun _ => []) none "clarinet" =
      create_error_response "Scan failed: Please show clearer composer" :=
  ⟨rfl, (c3_composer_hard_rule c3Identification (fun _ => []) none "clarinet"
    (Or.inl (by decide))).2.1⟩

/-- **C4** (confirmed).  `create_simple_search_terms` (main.py lines 361-386):
with empty `scene_movement` exactly the two strategies `basic`, `ensemble`
are produced in that order; with non-empty scene exactly the four
`basic`, `scene`, `ensemble`, `ensemble_scene`, with the stated query
formats.  The equalities are on the literal list, so identical query texts
are not deduplicated. -/
theorem c4_strategy_generation (piece_id : PieceIdentification) (instrument : String) :
    (piece_id.scene_movement = "" →
      create_simple_search_terms piece_id instrument =
        [(piece_id.title ++ " " ++ piece_id.composer ++ " " ++ instrument, "basic"),
         (piece_id.title ++ " " ++ piece_id.composer, "ensemble")]) ∧
    (piece_id.scene_movement ≠ "" →
      create_simple_search_terms piece_id instrument =
        [(piece_id.title ++ " " ++ piece_id.composer ++ " " ++ instrument, "basic"),
         (piece_id.title ++ " " ++ piece_id.composer ++ " " ++ instrument ++ " "
           ++ piece_id.scene_movement, "scene"),
         (piece_id.title ++ " " ++ piece_id.composer, "ensemble"),
         (piece_id.title ++ " " ++ piece_id.composer ++ " "
           ++ piece_id.scene_movement, "ensemble_scene")]) := by
  constructor <;> intro h <;> simp [create_simple_search_terms, h]

/-- Witness for C4 at a sceneless and at a scene-bearing identification. -/
theorem c4_strategy_generation_witness :
    create_simple_search_terms c4PieceNoScene "clarinet" =
      [(c4PieceNoScene.title ++ " " ++ c4PieceNoScene.composer ++ " " ++ "clarinet",
        "basic"),
       (c4PieceNoScene.title ++ " " ++ c4PieceNoScene.composer, "ensemble")] ∧
    create_simple_search_terms c4PieceScene "violin" =
      [(c4PieceScene.title ++ " " ++ c4PieceScene.composer ++ " " ++ "violin", "basic"),
       (c4PieceScene.title ++ " " ++ c4PieceScene.composer ++ " " ++ "violin" ++ " "
         ++ c4PieceScene.scene_movement, "scene"),
       (c4PieceScene.title ++ " " ++ c4PieceScene.composer, "ensemble"),
       (c4PieceScene.title ++ " " ++ c4PieceScene.composer ++ " "
         ++ c4PieceScene.scene_movement, "ensemble_scene")] :=
  ⟨(c4_strategy_generation c4PieceNoScene "clarinet").1 rfl,
   (c4_strategy_generation c4PieceScene "violin").2 (by decide)⟩

/-- **C9** (confirmed).  `parse_youtube_duration` / `format_duration`
(main.py lines 605-623): when the `isodate` library rejects the duration
string (the oracle returns `none`, covering every malformed input), parsing
yields exactly `0` and formatting that result yields `"0:00"`.  Both
functions are total Lean functions, so the parse-then-format composition
never fails on any input. -/
theorem c9_duration_roundtrip (isoParse : String → Option Int) (duration_iso : String)
    (h : isoParse duration_iso = none) :
    parse_youtube_duration isoParse duration_iso = 0 ∧
    format_duration (parse_youtube_duration isoParse duration_iso) = "0:00" := by
  have h0 : parse_youtube_duration isoParse duration_iso = 0 := by
    simp [parse_youtube_duration, h]
  exact ⟨h0, by rw [h0]; rfl⟩

/-- `setScores` rewrites only the five score fields, so the identity
projection is unchanged. -/
theorem coreOf_setScores (v : VideoResult) (s : ScoreItem) :
    coreOf (setScores v s) = coreOf v := rfl

/-- Applying a score array never changes the identity projection of the
candidate list. -/
theorem apply_scores_map_coreOf (scores_data : List ScoreItem) :
    ∀ videos : List VideoResult,
      (apply_scores videos scores_data).map coreOf = videos.map coreOf := by
  induction scores_data with
  | nil => intro videos; rfl
  | cons s rest ih =>
    intro videos
    have hstep : apply_scores videos (s :: rest) =
        apply_scores
          (videos.map (fun v => if v.video_id == s.video_id then setScores v s else v))
          rest := rfl
    rw [hstep, ih, List.map_map]
    congr 1
    funext v
    by_cases h : v.video_id == s.video_id <;> simp [Function.comp, h, coreOf_setScores]

/-- A candidate matched by no scored entry passes through `apply_scores`
entirely unchanged (it is still a member of the result). -/
theorem apply_scores_untouched (scores_data : List ScoreItem) :
    ∀ (videos : List VideoResult) (v : VideoResult), v ∈ videos →
      (∀ s ∈ scores_data, v.video_id ≠ s.video_id) →
      v ∈ apply_scores videos scores_data := by
  induction scores_data with
  | nil => intro videos v hv _; exact hv
  | cons s rest ih =>
    intro videos v hv hs
    have hne : (v.video_id == s.video_id) = false :=
      beq_eq_false_iff_ne.mpr (hs s (List.mem_cons_self s rest))
    have hv' : v ∈ videos.map
        (fun w => if w.video_id == s.video_id then setScores w s else w) := by
      have hmem := List.mem_map_of_mem
        (fun w => if w.video_id == s.video_id then setScores w s else w) hv
      simpa [hne] using hmem
    exact ih _ v hv' (fun t ht => hs t (List.mem_cons_of_mem s ht))

/-- **C8** (confirmed).  `rank_by_accuracy` (main.py lines 743-756, 767-770)
preserves the candidate set: in both the scored path and the views-based
fallback path the output is a permutation of the input up to the five score
fields (the `coreOf` projection, i.e. no candidate is added or removed and
no discovery-stage field is changed); a candidate matched by no scored
entry survives completely unchanged, keeping its zero scores; and the
fallback path is a permutation of the input outright, scores untouched. -/
theorem c8_ranking_preserves_candidates (videos : List VideoResult)
    (scoring : Option (List ScoreItem)) :
    ((rank_by_accuracy videos scoring).map coreOf).Perm (videos.map coreOf) ∧
    (∀ scores_data, scoring = some scores_data →
      ∀ v ∈ videos, (∀ s ∈ scores_data, v.video_id ≠ s.video_id) →
        v ∈ rank_by_accuracy videos scoring) ∧
    (scoring = none → (rank_by_accuracy videos scoring).Perm videos) := by
  cases videos with
  | nil =>
    refine ⟨by simp [rank_by_accuracy], ?_, by simp [rank_by_accuracy]⟩
    intro scores_data _ v hv
    exact absurd hv (List.not_mem_nil v)
  | cons v0 vs =>
    cases scoring with
    | some scores_data =>
      have hr : rank_by_accuracy (v0 :: vs) (some scores_data) =
          List.insertionSort accuracyDesc (apply_scores (v0 :: vs) scores_data) := by
        simp [rank_by_accuracy]
      refine ⟨?_, ?_, fun h => nomatch h⟩
      · rw [hr]
        have hperm := (List.perm_insertionSort accuracyDesc
          (apply_scores (v0 :: vs) scores_data)).map coreOf
        rw [apply_scores_map_coreOf scores_data (v0 :: vs)] at hperm
        exact hperm
      · intro sd hsd v hv hs
        injection hsd with h'
        subst h'
        rw [hr]
        exact (List.perm_insertionSort accuracyDesc _).mem_iff.mpr
          (apply_scores_untouched scores_data (v0 :: vs) v hv hs)
    | none =>
      have hr : rank_by_accuracy (v0 :: vs) none =
          List.insertionSort viewsDesc (v0 :: vs) := by
        simp [rank_by_accuracy]
      refine ⟨?_, ?_, ?_⟩
      · rw [hr]
        exact (List.perm_insertionSort viewsDesc (v0 :: vs)).map coreOf
      · intro sd hsd
        exact nomatch hsd
      · intro _
        rw [hr]
        exact List.perm_insertionSort viewsDesc (v0 :: vs)

/-- Witness for C8: one candidate, one non-matching scored entry. -/
theorem c8_ranking_preserves_candidates_witness :
    ((rank_by_accuracy [c8Video] (some [c8Score])).map coreOf).Perm
      ([c8Video].map coreOf) ∧
    c8Video ∈ rank_by_accuracy [c8Video] (some [c8Score]) := by
  obtain ⟨h1, h2, _⟩ := c8_ranking_preserves_candidates [c8Video] (some [c8Score])
  exact ⟨h1, h2 [c8Score] rfl c8Video (by simp) (by decide)⟩

/-- Witness for C9 at a concrete malformed duration. -/
theorem c9_duration_roundtrip_witness :
    parse_youtube_duration (fun _ => none) "not a duration" = 0 ∧
    format_duration (parse_youtube_duration (fun _ => none) "not a duration") = "0:00" :=
  c9_duration_roundtrip (fun _ => none) "not a duration" rfl

/-- Folding the dict insertion over a stream: restricted to one identifier,
the accumulated list gains exactly the stream's first occurrence of that
identifier — and nothing once it already holds one. -/
theorem foldl_dedupInsert_filter (i : String) :
    ∀ (l acc : List VideoResult),
      (l.foldl dedupInsert acc).filter (fun v => v.video_id == i) =
        if (acc.filter (fun v => v.video_id == i)).isEmpty then
          acc.filter (fun v => v.video_id == i)
            ++ ((l.filter (fun v => v.video_id == i)).take 1)
        else acc.filter (fun v => v.video_id == i) := by
  intro l
  induction l with
  | nil =>
    intro acc
    split <;> simp
  | cons v rest ih =>
    intro acc
    rw [List.foldl_cons, ih]
    by_cases hv : (v.video_id == i) = true
    · have hid : v.video_id = i := eq_of_beq hv
      by_cases hacc : acc.any (fun w => w.video_id == v.video_id) = true
      · -- already present: insertion is a no-op and the accumulator's
        -- filtered part is non-empty
        have hins : dedupInsert acc v = acc := by
          unfold dedupInsert
          rw [if_pos hacc]
        obtain ⟨w, hw, hwid⟩ := List.any_eq_true.mp hacc
        rw [hid] at hwid
        have hwmem : w ∈ acc.filter (fun u => u.video_id == i) :=
          List.mem_filter.mpr ⟨hw, hwid⟩
        have hne : (acc.filter (fun u => u.video_id == i)).isEmpty = false := by
          cases hfe : acc.filter (fun u => u.video_id == i) with
          | nil => rw [hfe] at hwmem; exact absurd hwmem (List.not_mem_nil w)
          | cons x xs => rfl
        rw [hins, hne]
        simp
      · -- first occurrence: it is appended, and the accumulator had none
        have hins : dedupInsert acc v = acc ++ [v] := by
          unfold dedupInsert
          rw [if_neg hacc]
        have hfil : acc.filter (fun u => u.video_id == i) = [] := by
          rw [List.filter_eq_nil_iff]
          intro w hw
          have hnot : ¬ (w.video_id == v.video_id) = true := by
            intro hcontra
            exact hacc (List.any_eq_true.mpr ⟨w, hw, hcontra⟩)
          rw [hid] at hnot
          simpa using hnot
        rw [hins, List.filter_append, hfil]
        simp [hv]
    · -- a video with a different identifier never affects this filter
      have hins : (dedupInsert acc v).filter (fun u => u.video_id == i) =
          acc.filter (fun u => u.video_id == i) := by
        unfold dedupInsert
        split
        · rfl
        · rw [List.filter_append]
          simp [hv]
      rw [hins]
      simp [List.filter_cons, hv]

/-- `search_youtube_simple` is the dict-insertion fold over the flattened
stream of successful strategy results. -/
theorem search_youtube_simple_eq_stream
    (strategy_results : List (Except String (List VideoResult))) :
    search_youtube_simple strategy_results =
      (strategyStream strategy_results).foldl dedupInsert [] := by
  suffices h : ∀ (rs : List (Except String (List VideoResult)))
      (acc : List VideoResult),
      rs.foldl (fun all_videos r =>
        match r with
        | .ok videos => videos.foldl dedupInsert all_videos
        | .error _ => all_videos) acc
        = (strategyStream rs).foldl dedupInsert acc from h strategy_results []
  intro rs
  induction rs with
  | nil => intro acc; rfl
  | cons r rest ih =>
    intro acc
    cases r with
    | ok videos =>
      rw [List.foldl_cons, ih]
      simp [strategyStream, List.filterMap_cons, List.foldl_append]
    | error e =>
      rw [List.foldl_cons, ih]
      simp [strategyStream, List.filterMap_cons]

/-- **C5** (confirmed).  Cross-strategy deduplication in
`search_youtube_simple` (main.py lines 388-405): for every sequence of
per-strategy result lists and every identifier, the merged output restricted
to that identifier is exactly the first occurrence in strategy generation
order (`take 1` of the flattened stream's occurrences) — so when two
candidates share an identifier, exactly one survives, namely the first one
encountered, carrying that first occurrence's whole record including its
strategy label. -/
theorem c5_dedup_first_wins
    (strategy_results : List (Except String (List VideoResult))) (i : String) :
    ((search_youtube_simple strategy_results).filter (fun v => v.video_id == i) =
      ((strategyStream strategy_results).filter (fun v => v.video_id == i)).take 1) ∧
    ∀ v ∈ strategyStream strategy_results,
      ((search_youtube_simple strategy_results).filter
        (fun w => w.video_id == v.video_id)).length = 1 := by
  have key : ∀ j : String,
      (search_youtube_simple strategy_results).filter (fun v => v.video_id == j) =
        ((strategyStream strategy_results).filter (fun v => v.video_id == j)).take 1 := by
    intro j
    rw [search_youtube_simple_eq_stream, foldl_dedupInsert_filter]
    simp
  refine ⟨key i, ?_⟩
  intro v hv
  rw [key v.video_id]
  have hvf : v ∈ (strategyStream strategy_results).filter
      (fun w => w.video_id == v.video_id) :=
    List.mem_filter.mpr ⟨hv, by simp⟩
  cases hfe : (strategyStream strategy_results).filter
      (fun w => w.video_id == v.video_id) with
  | nil => rw [hfe] at hvf; exact absurd hvf (List.not_mem_nil v)
  | cons x xs => rfl

/-- Witness for C5: the duplicated identifier of `c5Results` survives
exactly once. -/
theorem c5_dedup_first_wins_witness :
    ((search_youtube_simple c5Results).filter
      (fun w => w.video_id == c5Dup1.video_id)).length = 1 :=
  (c5_dedup_first_wins c5Results "ddddddddddd").2 c5Dup1 (by decide)

/-- In `search_youtube_single`, a non-transport attempt with any non-200
status is skipped in favour of the next credential — exactly like the
quota/auth statuses. -/
theorem search_single_skips_other_status (details : List String → List VideoResult)
    (b : SearchAttempt) (l : List SearchAttempt)
    (hb : b.transportFail = false) (hbs : b.status ≠ 200) :
    search_youtube_single details (b :: l) = search_youtube_single details l := by
  have hbs' : (b.status == 200) = false := beq_eq_false_iff_ne.mpr hbs
  simp [search_youtube_single, hb, hbs']

/-- When every attempt fails with a non-transport, non-success status, the
loop runs to exhaustion and the strategy yields zero results — not an
exception. -/
theorem search_single_exhausts (details : List String → List VideoResult) :
    ∀ attempts : List SearchAttempt,
      (∀ x ∈ attempts, x.transportFail = false ∧ x.status ≠ 200) →
      search_youtube_single details attempts = .ok [] := by
  intro attempts
  induction attempts with
  | nil => intro _; rfl
  | cons b l ih =>
    intro hall
    rw [search_single_skips_other_status details b l
      (hall b (List.mem_cons_self b l)).1 (hall b (List.mem_cons_self b l)).2]
    exact ih (fun x hx => hall x (List.mem_cons_of_mem b hx))

/-- **C6** (counterexample).  The claim says a non-success status outside
the quota/auth set abandons the strategy's search immediately with zero
results, with no further credential attempts.  In the source (main.py lines
467-469) that branch executes `continue`, advancing to the next credential:
here the first attempt returns HTTP 500 and the second credential is still
tried, succeeds, and the strategy returns its result — not zero results. -/
theorem c6_other_status_counterexample :
    search_youtube_single c6Details c6Attempts =
      .ok [sampleVideo "abcdefghijk" 0 0 0] ∧
    search_youtube_single c6Details c6Attempts ≠ .ok [] := by
  refine ⟨rfl, ?_⟩
  intro h
  have h2 : (Except.ok [sampleVideo "abcdefghijk" 0 0 0] :
      Except String (List VideoResult)) = .ok [] :=
    (rfl : search_youtube_single c6Details c6Attempts =
      .ok [sampleVideo "abcdefghijk" 0 0 0]).symm.trans h
  injection h2 with h3
  exact List.cons_ne_nil _ _ h3

/-- **C6** (amended).  On a non-success status outside the quota/auth set
(and not a transport failure), `search_youtube_single` does not abandon the
strategy: it skips to the next credential exactly as for 403/429; the empty
attempt list returns zero results; and only when every credential fails
this way does the strategy yield zero results — never a fatal error. -/
theorem c6_other_status_amended (details : List String → List VideoResult)
    (a : SearchAttempt) (rest attempts : List SearchAttempt)
    (ha : a.transportFail = false) (hs : a.status ≠ 200) :
    search_youtube_single details (a :: rest) = search_youtube_single details rest ∧
    search_youtube_single details ([] : List SearchAttempt) = .ok [] ∧
    ((∀ x ∈ attempts, x.transportFail = false ∧ x.status ≠ 200) →
      search_youtube_single details attempts = .ok []) :=
  ⟨search_single_skips_other_status details a rest ha hs, rfl,
    search_single_exhausts details attempts⟩

/-- Witness for the amended C6: a 500-status attempt is skipped in favour of
the next credential, and an all-500 run yields zero results. -/
theorem c6_other_status_amended_witness :
    search_youtube_single c6Details c6Attempts =
      search_youtube_single c6Details
        [{ transportFail := false, status := 200, items := ["abcdefghijk"] }] ∧
    search_youtube_single c6Details
      [{ transportFail := false, status := 500, items := [] }] = .ok [] := by
  obtain ⟨h1, _, h3⟩ := c6_other_status_amended c6Details
    { transportFail := false, status := 500, items := [] }
    [{ transportFail := false, status := 200, items := ["abcdefghijk"] }]
    [{ transportFail := false, status := 500, items := [] }]
    rfl (by decide)
  exact ⟨h1, h3 (by decide)⟩

/-- Concatenating the fixed-size batches restores the identifier list. -/
theorem chunks5_flatten {α : Type} : ∀ l : List α, (chunks5 l).flatten = l
  | [] => rfl
  | [_] => by simp [chunks5]
  | [_, _] => by simp [chunks5]
  | [_, _, _] => by simp [chunks5]
  | [_, _, _, _] => by simp [chunks5]
  | a :: b :: c :: d :: e :: rest => by
    simp [chunks5, chunks5_flatten rest]

/-- Folding a per-batch step that appends each batch's contribution yields
the contribution of the concatenation. -/
theorem foldl_batch_flatMap {g : String → List VideoResult}
    (f : List VideoResult → List String → List VideoResult)
    (hf : ∀ acc b, f acc b = acc ++ b.flatMap g) :
    ∀ (chunks : List (List String)) (acc : List VideoResult),
      chunks.foldl f acc = acc ++ chunks.flatten.flatMap g := by
  intro chunks
  induction chunks with
  | nil => intro acc; simp
  | cons b l ih =>
    intro acc
    rw [List.foldl_cons, hf, ih]
    simp [List.append_assoc]

/-- **C7** (counterexample).  The claim says any client-error (4xx) status
on a batch request triggers the per-identifier fallback.  The source
(main.py lines 513-522) checks `status_code == 400` only: a 404 batch lands
in the `else` branch and the whole batch is skipped — here individual
fetches would have succeeded, yet the result is empty. -/
theorem c7_batch_fallback_counterexample :
    get_video_details c7Iso c7Batch404 c7Single ["aaaaaaaaaaa"] "basic" = [] ∧
    (400 ≤ 404 ∧ 404 < 500) ∧
    get_single_video_details c7Iso c7Single "aaaaaaaaaaa" "basic" ≠ [] := by
  refine ⟨rfl, by decide, ?_⟩
  intro h
  have hlen : (get_single_video_details c7Iso c7Single "aaaaaaaaaaa" "basic").length = 1 :=
    rfl
  rw [h] at hlen
  exact absurd hlen (by decide)

/-- **C7** (amended).  `get_video_details` falls back to fetching each
identifier of a batch individually exactly when the batch request fails
with HTTP 400 (not the whole 4xx class); in that fallback, individual
failures — any non-200 status or transport error on the single-item request
— are tolerated silently, those videos being simply omitted. -/
theorem c7_batch400_fallback (isoParse : String → Option Int)
    (batch : List String → HttpResult (List RawVideoItem))
    (single : String → HttpResult (List RawVideoItem))
    (video_ids : List String) (strategy : String)
    (hb : ∀ b, batch b = .status 400) :
    get_video_details isoParse batch single video_ids strategy =
      video_ids.flatMap
        (fun vid => get_single_video_details isoParse single vid strategy) ∧
    (∀ vid c, single vid = .status c →
      get_single_video_details isoParse single vid strategy = []) ∧
    (∀ vid, single vid = .netError →
      get_single_video_details isoParse single vid strategy = []) := by
  refine ⟨?_, ?_, ?_⟩
  · unfold get_video_details
    rw [@foldl_batch_flatMap
      (fun vid => get_single_video_details isoParse single vid strategy)
      (processBatch isoParse batch single strategy)
      (fun acc b => by unfold processBatch; rw [hb b]; simp)
      (chunks5 video_ids) []]
    rw [chunks5_flatten]
    simp
  · intro vid c hc
    unfold get_single_video_details
    rw [hc]
  · intro vid hc
    unfold get_single_video_details
    rw [hc]

/-- Witness for the amended C7: an all-400 batch oracle makes the details
fetch equal the per-identifier fallback. -/
theorem c7_batch400_fallback_witness :
    get_video_details c7Iso c7Batch400 c7Single ["aaaaaaaaaaa"] "basic" =
      ["aaaaaaaaaaa"].flatMap
        (fun vid => get_single_video_details c7Iso c7Single vid "basic") :=
  (c7_batch400_fallback c7Iso c7Batch400 c7Single ["aaaaaaaaaaa"] "basic"
    (fun _ => rfl)).1

/-- The running balance of the empty prefix is zero. -/
theorem braceBal_zero (tail : List Char) : braceBal tail 0 = 0 := by
  simp [braceBal]

/-- How the running balance evolves past the first character. -/
theorem braceBal_cons (ch : Char) (rest : List Char) (k : Nat) :
    braceBal (ch :: rest) (k + 1) =
      (if ch == lbrace then 1 else if ch == rbrace then (-1 : Int) else 0)
        + braceBal rest k := by
  by_cases h1 : ch == lbrace
  · have h1' : ch = lbrace := eq_of_beq h1
    subst h1'
    simp [braceBal, List.count_cons, show lbrace ≠ rbrace from by decide,
      show rbrace ≠ lbrace from by decide]
    omega
  · by_cases h2 : ch == rbrace
    · have h2' : ch = rbrace := eq_of_beq h2
      subst h2'
      simp [braceBal, List.count_cons, show lbrace ≠ rbrace from by decide,
        show rbrace ≠ lbrace from by decide]
      omega
    · have h1' : (lbrace == ch) = false := by
        rw [Bool.beq_comm]
        simpa using h1
      have h2' : (rbrace == ch) = false := by
        rw [Bool.beq_comm]
        simpa using h2
      simp [braceBal, List.count_cons, h1, h2, h1', h2']

/-- If the running counter never reaches zero on any non-empty prefix, the
scan loop runs off the end without breaking. -/
theorem braceScan_eq_none (l : List Char) :
    ∀ (c : Int) (i : Nat),
      (∀ k, 0 < k → k ≤ l.length → c + braceBal l k ≠ 0) →
      braceScan l c i = none := by
  induction l with
  | nil => intro c i _; rfl
  | cons ch rest ih =>
    intro c i hk
    by_cases h1 : ch == lbrace
    · rw [show braceScan (ch :: rest) c i = braceScan rest (c + 1) (i + 1) from by
        simp [braceScan, h1]]
      apply ih
      intro k hk0 hkl
      have hshift := hk (k + 1) (by omega) (by simp; omega)
      rw [braceBal_cons, if_pos h1] at hshift
      omega
    · by_cases h2 : ch == rbrace
      · have hone := hk 1 (by omega) (by simp)
        rw [braceBal_cons, if_neg (by simp [h1]), if_pos h2, braceBal_zero] at hone
        have hbne : (c - 1 == 0) = false := beq_eq_false_iff_ne.mpr (by omega)
        rw [show braceScan (ch :: rest) c i = braceScan rest (c - 1) (i + 1) from by
          simp [braceScan, h1, h2, hbne]]
        apply ih
        intro k hk0 hkl
        have hshift := hk (k + 1) (by omega) (by simp; omega)
        rw [braceBal_cons, if_neg (by simp [h1]), if_pos h2] at hshift
        omega
      · rw [show braceScan (ch :: rest) c i = braceScan rest c (i + 1) from by
          simp [braceScan, h1, h2]]
        apply ih
        intro k hk0 hkl
        have hshift := hk (k + 1) (by omega) (by simp; omega)
        rw [braceBal_cons, if_neg (by simp [h1]), if_neg (by simp [h2])] at hshift
        omega

/-- If the running counter, started strictly positive, first reaches zero
exactly after `e` characters, the scan breaks there and reports the slice
boundary `i + e`. -/
theorem braceScan_eq_some (l : List Char) :
    ∀ (c : Int) (i : Nat) (e : Nat),
      0 < c → 0 < e → e ≤ l.length → c + braceBal l e = 0 →
      (∀ k, 0 < k → k < e → c + braceBal l k ≠ 0) →
      braceScan l c i = some (i + e) := by
  induction l with
  | nil =>
    intro c i e _ he hel _ _
    simp at hel
    omega
  | cons ch rest ih =>
    intro c i e hc he hel hbe hmin
    obtain ⟨e', rfl⟩ : ∃ e', e = e' + 1 := ⟨e - 1, by omega⟩
    by_cases h1 : ch == lbrace
    · rw [braceBal_cons, if_pos h1] at hbe
      have he' : 0 < e' := by
        rcases Nat.eq_zero_or_pos e' with h0 | h0
        · subst h0
          rw [braceBal_zero] at hbe
          omega
        · exact h0
      rw [show braceScan (ch :: rest) c i = braceScan rest (c + 1) (i + 1) from by
        simp [braceScan, h1]]
      rw [ih (c + 1) (i + 1) e' (by omega) he' (by simp at hel; omega) (by omega) ?_]
      · congr 1
        omega
      · intro k hk0 hke
        have hshift := hmin (k + 1) (by omega) (by omega)
        rw [braceBal_cons, if_pos h1] at hshift
        omega
    · by_cases h2 : ch == rbrace
      · rw [braceBal_cons, if_neg (by simp [h1]), if_pos h2] at hbe
        rcases Nat.eq_zero_or_pos e' with h0 | he'
        · -- the very first character closes the object: `c` must be 1
          subst h0
          rw [braceBal_zero] at hbe
          have hc1 : c = 1 := by omega
          subst hc1
          simp [braceScan, h1, h2]
        · have hone := hmin 1 (by omega) (by omega)
          rw [braceBal_cons, if_neg (by simp [h1]), if_pos h2, braceBal_zero] at hone
          have hbne : (c - 1 == 0) = false := beq_eq_false_iff_ne.mpr (by omega)
          rw [show braceScan (ch :: rest) c i = braceScan rest (c - 1) (i + 1) from by
            simp [braceScan, h1, h2, hbne]]
          rw [ih (c - 1) (i + 1) e' (by omega) he' (by simp at hel; omega) (by omega) ?_]
          · congr 1
            omega
          · intro k hk0 hke
            have hshift := hmin (k + 1) (by omega) (by omega)
            rw [braceBal_cons, if_neg (by simp [h1]), if_pos h2] at hshift
            omega
      · rw [braceBal_cons, if_neg (by simp [h1]), if_neg (by simp [h2])] at hbe
        have he' : 0 < e' := by
          rcases Nat.eq_zero_or_pos e' with h0 | h0
          · subst h0
            rw [braceBal_zero] at hbe
            omega
          · exact h0
        rw [show braceScan (ch :: rest) c i = braceScan rest c (i + 1) from by
          simp [braceScan, h1, h2]]
        rw [ih c (i + 1) e' hc he' (by simp at hel; omega) (by omega) ?_]
        · congr 1
          omega
        · intro k hk0 hke
          have hshift := hmin (k + 1) (by omega) (by omega)
          rw [braceBal_cons, if_neg (by simp [h1]), if_neg (by simp [h2])] at hshift
          omega

/-- `findCharIdx` misses exactly when no character satisfies the predicate. -/
theorem findCharIdx_eq_none_iff (p : Char → Bool) :
    ∀ cs : List Char, findCharIdx p cs = none ↔ ∀ c ∈ cs, p c = false := by
  intro cs
  induction cs with
  | nil => simp [findCharIdx]
  | cons c rest ih =>
    by_cases hp : p c = true
    · simp [findCharIdx, hp]
    · have hp' : p c = false := by simpa using hp
      simp [findCharIdx, hp', ih, Option.map_eq_none']

/-- `findCharIdx` returns `start` when nothing before `start` satisfies the
predicate and the character at `start` does. -/
theorem findCharIdx_eq_some_of (p : Char → Bool) :
    ∀ (cs : List Char) (start : Nat) (ch : Char) (rest : List Char),
      cs.drop start = ch :: rest → p ch = true →
      (∀ c ∈ cs.take start, p c = false) →
      findCharIdx p cs = some start := by
  intro cs
  induction cs with
  | nil =>
    intro start ch rest hdrop _ _
    rw [List.drop_nil] at hdrop
    exact nomatch hdrop
  | cons c cs' ih =>
    intro start ch rest hdrop hp htake
    cases start with
    | zero =>
      have hc : c = ch := by
        simpa using congrArg (fun l => l.headD c) hdrop
      rw [hc] at *
      simp [findCharIdx, hp]
    | succ s =>
      have hcf : p c = false := htake c (by simp)
      have hrest : cs'.drop s = ch :: rest := by simpa using hdrop
      have htake' : ∀ x ∈ cs'.take s, p x = false := by
        intro x hx
        exact htake x (by simp [hx])
      simp [findCharIdx, hcf, ih s ch rest hrest hp htake']

/-- Evaluation of the extractor when no opening brace is found. -/
theorem extract_of_find_none (content : String)
    (hf : findCharIdx (fun c => c == lbrace) (stripFence content).toList = none) :
    extract_json_from_content content = .error "No JSON object found" := by
  simp only [extract_json_from_content]
  rw [hf]

/-- Evaluation of the extractor once the first opening brace is located:
everything reduces to the brace scan over the dropped suffix. -/
theorem extract_of_scan (content : String) (start : Nat)
    (hf : findCharIdx (fun c => c == lbrace) (stripFence content).toList = some start) :
    extract_json_from_content content =
      match braceScan ((stripFence content).toList.drop start) 0 0 with
      | some e => .ok (String.mk (((stripFence content).toList.drop start).take e))
      | none => .ok (String.mk (((stripFence content).toList.drop start).take 0)) := by
  simp only [extract_json_from_content]
  rw [hf]

/-- **C10** (confirmed).  Edge behaviour of `extract_json_from_content`
(main.py lines 334-359): after fence stripping, the `"No JSON object
found"` error is raised exactly when no opening brace is present; when an
opening brace is present at position `start` but the brace counter never
returns to zero on the scanned suffix, the extractor does not raise and
returns the empty string (the slice end stays at `start`); and when the
counter first returns to zero after `e` characters, it returns exactly that
prefix of the suffix — the first opening brace through its matching closing
brace. -/
theorem c10_extractor_edges (content : String) :
    ((extract_json_from_content content = .error "No JSON object found") ↔
      lbrace ∉ (stripFence content).toList) ∧
    (∀ start rest, (stripFence content).toList.drop start = lbrace :: rest →
      (∀ c ∈ (stripFence content).toList.take start, (c == lbrace) = false) →
      (neverBalances ((stripFence content).toList.drop start) →
        extract_json_from_content content = .ok "") ∧
      (∀ e, balancesAt ((stripFence content).toList.drop start) e →
        extract_json_from_content content =
          .ok (String.mk (((stripFence content).toList.drop start).take e)))) := by
  constructor
  · cases hf : findCharIdx (fun c => c == lbrace) (stripFence content).toList with
    | none =>
      have hnone := (findCharIdx_eq_none_iff _ _).mp hf
      have hnotmem : lbrace ∉ (stripFence content).toList := by
        intro hmem
        have := hnone lbrace hmem
        simp at this
      exact iff_of_true (extract_of_find_none content hf) hnotmem
    | some start =>
      have hmem : lbrace ∈ (stripFence content).toList := by
        by_contra hnm
        have hn : findCharIdx (fun c => c == lbrace) (stripFence content).toList = none := by
          refine (findCharIdx_eq_none_iff _ _).mpr ?_
          intro c hc
          cases hbeq : c == lbrace
          · rfl
          · exact absurd (eq_of_beq hbeq ▸ hc) hnm
        rw [hn] at hf
        exact nomatch hf
      have hok : ∃ s, extract_json_from_content content = .ok s := by
        rw [extract_of_scan content start hf]
        cases braceScan ((stripFence content).toList.drop start) 0 0 with
        | some e => exact ⟨_, rfl⟩
        | none => exact ⟨_, rfl⟩
      refine iff_of_false ?_ (not_not_intro hmem)
      obtain ⟨s, hs⟩ := hok
      rw [hs]
      intro hcontra
      exact nomatch hcontra
  · intro start rest hdrop htake
    have hf : findCharIdx (fun c => c == lbrace) (stripFence content).toList = some start :=
      findCharIdx_eq_some_of _ _ start lbrace rest hdrop (by simp) htake
    constructor
    · intro hnb
      have hscan : braceScan ((stripFence content).toList.drop start) 0 0 = none := by
        apply braceScan_eq_none
        intro k hk0 hkl
        have := hnb k hk0 hkl
        omega
      rw [extract_of_scan content start hf, hscan]
      rfl
    · intro e hbal
      obtain ⟨he, hel, hbe, hmin⟩ := hbal
      obtain ⟨e', rfl⟩ : ∃ e', e = e' + 1 := ⟨e - 1, by omega⟩
      have he' : 0 < e' := by
        rcases Nat.eq_zero_or_pos e' with h0 | h0
        · subst h0
          rw [hdrop, braceBal_cons, braceBal_zero] at hbe
          simp at hbe
        · exact h0
      have hscan : braceScan ((stripFence content).toList.drop start) 0 0
          = some (e' + 1) := by
        rw [hdrop]
        have hstep : braceScan (lbrace :: rest) 0 0 = braceScan rest 1 1 := by
          simp [braceScan]
        rw [hstep]
        rw [braceScan_eq_some rest 1 1 e' (by omega) he' ?hlen ?hbal ?hmin]
        · congr 1
          omega
        case hlen =>
          rw [hdrop] at hel
          simp at hel
          omega
        case hbal =>
          rw [hdrop, braceBal_cons] at hbe
          simp at hbe
          omega
        case hmin =>
          intro k hk0 hke
          have hsh := hmin (k + 1) (by omega) (by omega)
          rw [hdrop, braceBal_cons] at hsh
          simp at hsh
          omega
      rw [extract_of_scan content start hf, hscan]

/-- Witness for C10: a balanced object embedded in noise is cut out exactly,
and an unbalanced opening brace yields the empty string without raising. -/
theorem c10_extractor_edges_witness :
    extract_json_from_content "x \x7b a \x7d y" =
      .ok (String.mk (((stripFence "x \x7b a \x7d y").toList.drop 2).take 5)) ∧
    extract_json_from_content "q \x7b r" = .ok "" := by
  constructor
  · exact ((c10_extractor_edges "x \x7b a \x7d y").2 2
      [' ', 'a', ' ', rbrace, ' ', 'y'] (by decide) (by decide)).2 5
      ⟨by decide, by decide, by decide, by
        intro k h1 h2
        interval_cases k <;> decide⟩
  · exact ((c10_extractor_edges "q \x7b r").2 2 [' ', 'r'] (by decide) (by decide)).1
      (by
        intro k h1 h2
        have hlen : ((stripFence "q \x7b r").toList.drop 2).length = 3 := by decide
        rw [hlen] at h2
        interval_cases k <;> decide)

end SheetScan
